import Mathlib

/-!
Shallow embedding of the quantized deconvolution execution path
(`qnnpackDeConv` in aten/src/ATen/native/quantized/cpu/qnnpack/src/deconv-run.cc)
together with the spec-modelled collaborators that the file calls but whose
source is not part of this repository snapshot (the `round_up` helper, the
output-dimension computation from conv_utils.h, the indirection-buffer builder
`pytorch_qnnp_indirection_init_deconv2d`, and the thread pool's 4D tiled
parallel-for).

Machine integers (`size_t`) are modelled as `Nat`, with an explicit `% 2^w`
at the places where two's-complement / wrap-around semantics matter (the
`& -kr` bitmask producing `k_stride`, where `kr` is `uint32_t` so the mask is
computed modulo `2^32` and zero-extended, and the indirection-buffer byte
size, which wraps modulo `2^64`).
`float` scale parameters are modelled by the inductive classification `F32`
below: the code only classifies scales (`<= 0`, `isnormal`) and multiplies or
divides them, and every concrete value used in this development is exactly
representable, so the finite values carry their exact rational value.
-/

/-- The status codes this path can return (`pytorch_qnnp_status`). -/
inductive Status where
  | success
  | invalid_parameter
  | out_of_memory
  deriving DecidableEq, Repr

/-- Observable steps of one `qnnpackDeConv` invocation, in program order:
the `calloc` of the operator struct, the `malloc` of the zero-padding buffer,
the computation of the combined requantization scale, the `realloc` of the
indirection buffer, and the thread-pool dispatch. -/
inductive Event where
  | allocOperator
  | allocZero
  | computeCombinedScale
  | allocIndirection
  | dispatchCall
  deriving DecidableEq, Repr

/-- One cell of the indirection buffer: a null pointer (never produced by the
builder), a pointer into the zero-padding buffer, or a pointer into the input
tensor at the given byte offset. -/
inductive Cell where
  | null
  | zeroPtr
  | inputPtr (offset : Nat)
  deriving DecidableEq, Repr

/-- Classification model of a 32-bit float: NaN, a signed infinity, a signed
zero, a subnormal, or a normal number.  Finite nonzero values carry their
exact rational value (sign included). -/
inductive F32 where
  | nan
  | inf (neg : Bool)
  | zero (neg : Bool)
  | subnormal (val : ℚ)
  | normal (val : ℚ)
  deriving DecidableEq, Repr

/-- The C comparison `x <= 0.0f`: false on NaN, sign of the value otherwise. -/
def F32.le0 : F32 → Bool
  | .nan => false
  | .inf neg => neg
  | .zero _ => true
  | .subnormal v => decide (v ≤ 0)
  | .normal v => decide (v ≤ 0)

/-- `std::isnormal`: true exactly for normal finite numbers. -/
def F32.isnormal : F32 → Bool
  | .normal _ => true
  | _ => false

/-- Finiteness: everything but NaN and the infinities. -/
def F32.isFinite : F32 → Bool
  | .nan => false
  | .inf _ => false
  | _ => true

/-- Subnormal classification. -/
def F32.isSubnormal : F32 → Bool
  | .subnormal _ => true
  | _ => false

/-- The exact rational value of a finite float (junk value 0 on NaN/inf). -/
def F32.ratVal : F32 → ℚ
  | .subnormal v => v
  | .normal v => v
  | _ => 0

/-- The scale check performed by the code:
`scale <= 0.0f || !std::isnormal(scale)` (deconv-run.cc lines 41 and 49). -/
def scaleCheckFails (s : F32) : Bool :=
  s.le0 || !s.isnormal

/-- The spec's wording of an invalid scale: `<= 0`, non-finite, or subnormal. -/
def specInvalidScale (s : F32) : Bool :=
  s.le0 || !s.isFinite || s.isSubnormal

/-- The micro-kernel tile parameters `pytorch_qnnp_params.q8conv` read by the
run path (`mr`, `nr`, `kr`). -/
structure QConvParams where
  mr : Nat
  nr : Nat
  kr : Nat
  deriving DecidableEq, Repr

/-- The `conv_param_t` argument: geometry and quantization constants of the
deconvolution.  `padding` components are named after the assignments at
deconv-run.cc lines 99-102 (`padding[0]` = top, `[1]` = left, `[2]` = bottom,
`[3]` = right). -/
structure conv_param_t where
  kernel_width : Nat
  kernel_height : Nat
  stride_width : Nat
  stride_height : Nat
  dilation_width : Nat
  dilation_height : Nat
  padding_top : Nat
  padding_left : Nat
  padding_bottom : Nat
  padding_right : Nat
  adjustment_width : Nat
  adjustment_height : Nat
  groups : Nat
  group_input_channels : Nat
  group_output_channels : Nat
  input_channels : Nat
  output_channels : Nat
  kernel_zero_point : Nat
  kernel_scale : F32
  output_min : Nat
  output_max : Nat
  deriving DecidableEq, Repr

/-- `size_t` width. -/
def W64 : Nat := 2 ^ 64

/-- `uint32_t` width. -/
def W32 : Nat := 2 ^ 32

/-- Modelled from the spec: `divide_round_up` from the qnnpack math header
(not under src/), the ceiling division used by `round_up`. -/
def divide_round_up (n q : Nat) : Nat :=
  if n % q == 0 then n / q else n / q + 1

/-- Modelled from the spec: `round_up(n, q)` rounds `n` up to a multiple of
the micro-kernel tile width `q` ("output_size rounded up to the micro-kernel's
row-tile width"). -/
def round_up (n q : Nat) : Nat :=
  divide_round_up n q * q

/-- `k_stride = (group_input_channels + (kr - 1)) & -kr` (deconv-run.cc line
63).  `kr` is `uint32_t` (line 62), so the unary minus is computed in 32-bit
unsigned arithmetic: `-kr` is `2^32 - kr`, which is then zero-extended to
`size_t` for the `&` with the 64-bit left operand. -/
def k_strideOf (kr gic : Nat) : Nat :=
  Nat.land ((gic + (kr - 1)) % W64) ((W32 - kr) % W32)

/-- `n_stride = (group_output_channels + (nr - 1)) & -nr` (line 64), with the
same `uint32_t` negation of `nr`. -/
def n_strideOf (nr goc : Nat) : Nat :=
  Nat.land ((goc + (nr - 1)) % W64) ((W32 - nr) % W32)

/-- Modelled from the spec: one axis of `compute_output_dims` (conv_utils.h is
not under src/).  The spec gives the standard transposed-convolution formula
`(input-1)*stride - padding + dilation*(kernel-1) + adjustment + 1` with the
two per-side paddings of the axis summed into `padTotal`. -/
def compute_output_dimension (stride input adj kernel dil padTotal : Nat) : Nat :=
  stride * (input - 1) + adj + ((kernel - 1) * dil + 1) - padTotal

/-- Output width of the deconvolution (`output_dims[0]`). -/
def outputWidthOf (p : conv_param_t) (input_width : Nat) : Nat :=
  compute_output_dimension p.stride_width input_width p.adjustment_width
    p.kernel_width p.dilation_width (p.padding_left + p.padding_right)

/-- Output height of the deconvolution (`output_dims[1]`). -/
def outputHeightOf (p : conv_param_t) (input_height : Nat) : Nat :=
  compute_output_dimension p.stride_height input_height p.adjustment_height
    p.kernel_height p.dilation_height (p.padding_top + p.padding_bottom)

/-- Modelled from the spec: one axis of the transposed-convolution indirection
mapping.  For output coordinate `o` and kernel tap `k`, the matching input
coordinate is the `i` with `o = i*stride - pad + k*dil`; the tap is invalid
(zero padding) when `o + pad - k*dil` is negative, does not align to the
stride, or yields `i` outside `[0, dim)`. -/
def deconvTapIndex (pad stride dil dim : Nat) (o k : Nat) : Option Nat :=
  let y : Int := (o : Int) + (pad : Int) - (k : Int) * (dil : Int)
  if 0 ≤ y ∧ y % (stride : Int) = 0 ∧ y / (stride : Int) < (dim : Int) then
    some (y / (stride : Int)).toNat
  else
    none

/-- Modelled from the spec: the cell `pytorch_qnnp_indirection_init_deconv2d`
(indirection.c, not under src/) stores for image `im`, group `g`, tiled output
position `t` and kernel tap `(ky, kx)`.  Tile-padding rows past the true
`output_size` map entirely to zero padding; a valid tap points into the input
tensor at a channel-strided offset. -/
def indirectionEntry (p : conv_param_t) (input_height input_width : Nat)
    (output_size output_width : Nat) (g im t ky kx : Nat) : Cell :=
  if output_size ≤ t then Cell.zeroPtr
  else
    let oy := t / output_width
    let ox := t % output_width
    match deconvTapIndex p.padding_top p.stride_height p.dilation_height
            input_height oy ky,
          deconvTapIndex p.padding_left p.stride_width p.dilation_width
            input_width ox kx with
    | some iy, some ix =>
        Cell.inputPtr (((im * input_height + iy) * input_width + ix) *
          p.input_channels + g * p.group_input_channels)
    | _, _ => Cell.zeroPtr

/-- Modelled from the spec: the indirection buffer holds one cell per
(group, image, tiled-output-position, kernel-position) tuple. -/
def indirectionBufferOf (p : conv_param_t) (batch_size input_height input_width : Nat)
    (output_size output_width tiled_output_size : Nat) : List Cell :=
  (List.range p.groups).flatMap fun g =>
    (List.range batch_size).flatMap fun im =>
      (List.range tiled_output_size).flatMap fun t =>
        (List.range p.kernel_height).flatMap fun ky =>
          (List.range p.kernel_width).map fun kx =>
            indirectionEntry p input_height input_width output_size output_width
              g im t ky kx

/-- The starts of the tiles covering `[0, n)` with tile width `step`. -/
def tileStarts (step n : Nat) : List Nat :=
  (List.range (divide_round_up n step)).map fun i => i * step

/-- Modelled from the spec: the thread pool's `pthreadpool_compute_4d_tiled`
primitive invokes the supplied function once per tile of the 4-dimensional
space, with tile sizes `(1, 1, mr, nr)` as passed at deconv-run.cc lines
195-198; it returns only after all tiles ran.  The tiles are identified by
their start coordinates `(group, image, output-position, channel)`. -/
def compute_4d_tiled_tiles (mr nr groups batch_size output_size goc : Nat) :
    List (Nat × Nat × Nat × Nat) :=
  (List.range groups).flatMap fun g =>
    (List.range batch_size).flatMap fun im =>
      (tileStarts mr output_size).flatMap fun k0 =>
        (tileStarts nr goc).map fun l0 => (g, im, k0, l0)

/-- The populated operator descriptor (`struct pytorch_qnnp_operator` fields
assigned by `qnnpackDeConv`).  `deconvolution_scale` is the combined scale of
line 118, carried as an exact rational. -/
structure DeconvOperator where
  zero_buffer : List Nat
  zero_offset : Nat
  input_padding_top : Nat
  input_padding_left : Nat
  input_padding_bottom : Nat
  input_padding_right : Nat
  adjustment_width : Nat
  adjustment_height : Nat
  kernel_width : Nat
  kernel_height : Nat
  stride_width : Nat
  stride_height : Nat
  dilation_width : Nat
  dilation_height : Nat
  groups : Nat
  group_input_channels : Nat
  group_output_channels : Nat
  kernel_zero_point : Nat
  deconvolution_scale : ℚ
  batch_size : Nat
  input_height : Nat
  input_width : Nat
  input_pixel_stride : Nat
  output_height : Nat
  output_width : Nat
  output_pixel_stride : Nat
  tiled_output_size : Nat
  indirection_buffer_size : Nat
  indirection_buffer : List Cell
  m_stride : Nat
  deriving DecidableEq, Repr

/-- The observable result of one `qnnpackDeConv` invocation: the returned
status, the ordered event trace, the populated descriptor (when execution got
that far), and the list of tiles handed to the thread pool. -/
structure RunResult where
  status : Status
  events : List Event
  op : Option DeconvOperator
  dispatched : List (Nat × Nat × Nat × Nat)
  deriving DecidableEq, Repr

/-- Combined requantization scale of the run, with junk default 1 when the
run never computed one. -/
def RunResult.scaleOf (r : RunResult) : ℚ :=
  (r.op.map fun o => o.deconvolution_scale).getD 1

/-- Shallow embedding of `qnnpackDeConv` (deconv-run.cc lines 13-200),
following the source's control flow and evaluation order statement by
statement.  Allocation is modelled as always succeeding; each allocation is
recorded in the event trace in program order. -/
def qnnpackDeConv (qp : QConvParams) (deconv_p : conv_param_t)
    (batch_size input_height input_width : Nat)
    (input_scale : F32) (input_zero_point : Nat)
    (output_scale : F32) (output_zero_point : Nat) : RunResult :=
  -- lines 27-30: batch_size == 0 short-circuit
  if batch_size = 0 then
    { status := .success, events := [], op := none, dispatched := [] }
  -- lines 41-47: input scale check
  else if scaleCheckFails input_scale then
    { status := .invalid_parameter, events := [], op := none, dispatched := [] }
  -- lines 49-55: output scale check
  else if scaleCheckFails output_scale then
    { status := .invalid_parameter, events := [], op := none, dispatched := [] }
  else
    -- lines 32-39: geometry locals
    let kernel_width := deconv_p.kernel_width
    let kernel_height := deconv_p.kernel_height
    -- lines 58-64: support vars
    let group_input_channels := deconv_p.group_input_channels
    let group_output_channels := deconv_p.group_output_channels
    let mr := qp.mr
    let nr := qp.nr
    let kr := qp.kr
    let k_stride := k_strideOf kr group_input_channels
    -- lines 67-78: calloc of the operator struct
    -- lines 81-94: zero-padding buffer
    let zero_size := if group_input_channels < 8 then k_stride + 8 else k_stride
    let zero_offset := if group_input_channels < 8 then 8 else 0
    let zero_buffer := List.replicate zero_size input_zero_point
    -- lines 117-126: combined scale and requantization parameters
    let deconvolution_scale :=
      input_scale.ratVal * deconv_p.kernel_scale.ratVal / output_scale.ratVal
    -- lines 132-142: output geometry and indirection-buffer size
    let output_width := outputWidthOf deconv_p input_width
    let output_height := outputHeightOf deconv_p input_height
    let kernel_size := kernel_height * kernel_width
    let output_size := output_height * output_width
    let output_tile_size := qp.mr
    let tiled_output_size := round_up output_size output_tile_size
    let indirection_buffer_size :=
      (8 * batch_size * deconv_p.groups * tiled_output_size * kernel_size) % W64
    -- lines 154-166: indirection buffer allocation and construction
    let indirection_buffer := indirectionBufferOf deconv_p batch_size
      input_height input_width output_size output_width tiled_output_size
    -- line 169: row stride for the GEMM context
    let m_stride := round_up output_size mr
    let op : DeconvOperator :=
      { zero_buffer := zero_buffer
        zero_offset := zero_offset
        input_padding_top := deconv_p.padding_top
        input_padding_left := deconv_p.padding_left
        input_padding_bottom := deconv_p.padding_bottom
        input_padding_right := deconv_p.padding_right
        adjustment_width := deconv_p.adjustment_width
        adjustment_height := deconv_p.adjustment_height
        kernel_width := kernel_width
        kernel_height := kernel_height
        stride_width := deconv_p.stride_width
        stride_height := deconv_p.stride_height
        dilation_width := deconv_p.dilation_width
        dilation_height := deconv_p.dilation_height
        groups := deconv_p.groups
        group_input_channels := group_input_channels
        group_output_channels := group_output_channels
        kernel_zero_point := deconv_p.kernel_zero_point
        deconvolution_scale := deconvolution_scale
        batch_size := batch_size
        input_height := input_height
        input_width := input_width
        input_pixel_stride := deconv_p.input_channels
        output_height := output_height
        output_width := output_width
        output_pixel_stride := deconv_p.output_channels
        tiled_output_size := tiled_output_size
        indirection_buffer_size := indirection_buffer_size
        indirection_buffer := indirection_buffer
        m_stride := m_stride }
    -- lines 187-198: tiled 4D dispatch over
    -- (groups, batch_size, output_size, group_output_channels)
    let tiles := compute_4d_tiled_tiles mr nr deconv_p.groups batch_size
      output_size group_output_channels
    { status := .success
      events := [.allocOperator, .allocZero, .computeCombinedScale,
                 .allocIndirection, .dispatchCall]
      op := some op
      dispatched := tiles }

/-- One tile of the 4D dispatch, identified by its start coordinates
`(group, image, output-position start, channel start)`. -/
abbrev Tile := Nat × Nat × Nat × Nat

/-- The grid data a tile needs to know its extent: tile heights `mr`/`nr` and
the true bounds `output_size` / `group_output_channels` that cap the last
tile in each direction. -/
structure TileGrid where
  mr : Nat
  nr : Nat
  output_size : Nat
  group_output_channels : Nat
  deriving DecidableEq, Repr

/-- Whether tile `t` writes the output cell `(image, output-position, global
channel)`: the dispatcher hands tile `t = (g, im, k0, l0)` the output rows
`[k0, min (k0+mr) output_size)` of image `im` and the global channels
`[g*goc + l0, g*goc + min (l0+nr) goc)`. -/
def coveredBy (G : TileGrid) (t : Tile) (c : Nat × Nat × Nat) : Bool :=
  c.1 = t.2.1 &&
  t.2.2.1 ≤ c.2.1 && c.2.1 < t.2.2.1 + G.mr && c.2.1 < G.output_size &&
  t.1 * G.group_output_channels + t.2.2.2 ≤ c.2.2 &&
  c.2.2 < t.1 * G.group_output_channels + t.2.2.2 + G.nr &&
  c.2.2 < t.1 * G.group_output_channels + G.group_output_channels

/-- The effect of running one tile's micro-kernel invocation on the output
buffer (modelled as a map from output cells to byte values): the cells the
tile covers get the values the micro-kernel computes from the read-only
inputs (abstracted as `uk`), all other cells are untouched. -/
def applyTile (G : TileGrid) (uk : Tile → Nat × Nat × Nat → Nat)
    (f : Nat × Nat × Nat → Nat) (t : Tile) : Nat × Nat × Nat → Nat :=
  fun c => if coveredBy G t c then uk t c else f c

/-- Running the dispatched tiles in one particular sequential order
(a schedule): the thread pool may execute tiles in any order, a schedule is
one linearization of that execution. -/
def runSchedule (G : TileGrid) (uk : Tile → Nat × Nat × Nat → Nat)
    (init : Nat × Nat × Nat → Nat) (ts : List Tile) : Nat × Nat × Nat → Nat :=
  ts.foldl (applyTile G uk) init

/-- Concrete micro-kernel tile parameters for witnesses: mr = nr = kr = 4. -/
def testQP : QConvParams := { mr := 4, nr := 4, kr := 4 }

/-- Concrete geometry for witnesses: 2x2 kernel, stride 2, dilation 1, no
padding or adjustment, 1 group, 1 channel everywhere. -/
def testConv : conv_param_t :=
  { kernel_width := 2, kernel_height := 2
    stride_width := 2, stride_height := 2
    dilation_width := 1, dilation_height := 1
    padding_top := 0, padding_left := 0, padding_bottom := 0, padding_right := 0
    adjustment_width := 0, adjustment_height := 0
    groups := 1, group_input_channels := 1, group_output_channels := 1
    input_channels := 1, output_channels := 1
    kernel_zero_point := 0, kernel_scale := F32.normal (1/2)
    output_min := 0, output_max := 255 }

/-- `testConv` with a kernel scale of exactly zero, making the combined
requantization scale zero (not positive). -/
def testConvZeroK : conv_param_t :=
  { testConv with kernel_scale := F32.zero false }

/-- The code's scale check (`s <= 0 || !isnormal(s)`) accepts exactly the
scales the spec calls valid: it fires iff the scale is `<= 0`, non-finite,
or subnormal. -/
theorem scaleCheckFails_eq_specInvalidScale (s : F32) :
    scaleCheckFails s = specInvalidScale s := by
  cases s <;>
    simp [scaleCheckFails, specInvalidScale, F32.le0, F32.isnormal,
      F32.isFinite, F32.isSubnormal]

/-- C1: the claim as stated is false: scale validation does NOT run before
the batch-size-0 short-circuit.  With `batch_size = 0` and an input scale of
positive zero (which is `<= 0`, hence invalid per the claim), the operation
returns `success`, not `invalid_parameter`. -/
theorem C1_batch0_invalid_scale_returns_success :
    specInvalidScale (F32.zero false) = true ∧
    (qnnpackDeConv testQP testConv 0 2 2 (F32.zero false) 128
      (F32.normal 1) 128).status = Status.success := by
  constructor
  · decide
  · rfl

/-- C1 (amended): for every invocation with `batch_size > 0` where the input
or output scale is `<= 0`, non-finite, or subnormal, the operation returns
`invalid_parameter` and performs no allocation (empty event trace, no
operator, no dispatch).  The batch-size-0 check runs first, so `batch_size =
0` bypasses scale validation (see the counterexample). -/
theorem C1_invalid_scale_rejected_no_alloc (qp : QConvParams)
    (deconv_p : conv_param_t) (batch_size ih iw izp ozp : Nat)
    (input_scale output_scale : F32)
    (hb : batch_size ≠ 0)
    (hs : specInvalidScale input_scale = true ∨
          specInvalidScale output_scale = true) :
    (qnnpackDeConv qp deconv_p batch_size ih iw input_scale izp
        output_scale ozp).status = Status.invalid_parameter ∧
    (qnnpackDeConv qp deconv_p batch_size ih iw input_scale izp
        output_scale ozp).events = [] ∧
    (qnnpackDeConv qp deconv_p batch_size ih iw input_scale izp
        output_scale ozp).op = none ∧
    (qnnpackDeConv qp deconv_p batch_size ih iw input_scale izp
        output_scale ozp).dispatched = [] := by
  have hs' : scaleCheckFails input_scale = true ∨
      scaleCheckFails output_scale = true := by
    rcases hs with h | h
    · exact Or.inl ((scaleCheckFails_eq_specInvalidScale _).trans h)
    · exact Or.inr ((scaleCheckFails_eq_specInvalidScale _).trans h)
  unfold qnnpackDeConv
  rw [if_neg hb]
  rcases hs' with h | h
  · rw [if_pos h]
    exact ⟨rfl, rfl, rfl, rfl⟩
  · by_cases h1 : scaleCheckFails input_scale = true
    · rw [if_pos h1]
      exact ⟨rfl, rfl, rfl, rfl⟩
    · rw [if_neg h1, if_pos h]
      exact ⟨rfl, rfl, rfl, rfl⟩

/-- Witness for the amended C1 at a concrete input (NaN input scale,
batch 1). -/
theorem C1_invalid_scale_rejected_no_alloc_witness :
    (1 : Nat) ≠ 0 ∧ specInvalidScale F32.nan = true ∧
    (qnnpackDeConv testQP testConv 1 2 2 F32.nan 128
        (F32.normal 1) 128).status = Status.invalid_parameter := by
  refine ⟨by decide, by decide, ?_⟩
  exact (C1_invalid_scale_rejected_no_alloc testQP testConv 1 2 2 128 128
    F32.nan (F32.normal 1) (by decide) (Or.inl (by decide))).1

/-- C2: the claim as stated is false: with a kernel scale of exactly zero the
combined scale `input_scale * kernel_scale / output_scale` is `0` (not
positive), yet the invocation is not rejected: it allocates the operator
struct and the zero-padding buffer BEFORE computing the combined scale (see
the event order) and returns `success`. -/
theorem C2_zero_combined_scale_not_rejected :
    (qnnpackDeConv testQP testConvZeroK 1 2 2 (F32.normal 1) 128
        (F32.normal 1) 128).scaleOf = 0 ∧
    (qnnpackDeConv testQP testConvZeroK 1 2 2 (F32.normal 1) 128
        (F32.normal 1) 128).status = Status.success ∧
    (qnnpackDeConv testQP testConvZeroK 1 2 2 (F32.normal 1) 128
        (F32.normal 1) 128).events =
      [Event.allocOperator, Event.allocZero, Event.computeCombinedScale,
       Event.allocIndirection, Event.dispatchCall] := by
  refine ⟨?_, rfl, rfl⟩
  show (F32.normal 1).ratVal * testConvZeroK.kernel_scale.ratVal /
      (F32.normal 1).ratVal = 0
  simp [F32.ratVal, testConvZeroK, testConv]

/-- C2 (amended): only `input_scale` and `output_scale` are individually
validated, and those checks do run before any allocation; the combined scale
`input_scale * kernel_scale / output_scale` is computed only AFTER the
operator struct and the zero-padding buffer are allocated (events 1 and 2
precede `computeCombinedScale` in the trace), and it is not itself validated
— an invocation whose combined scale is not finite and positive still
proceeds and returns success. -/
theorem C2_combined_scale_computed_after_alloc (qp : QConvParams)
    (deconv_p : conv_param_t) (batch_size ih iw izp ozp : Nat)
    (input_scale output_scale : F32)
    (hb : batch_size ≠ 0)
    (hin : scaleCheckFails input_scale = false)
    (hout : scaleCheckFails output_scale = false) :
    (qnnpackDeConv qp deconv_p batch_size ih iw input_scale izp
        output_scale ozp).events =
      [Event.allocOperator, Event.allocZero, Event.computeCombinedScale,
       Event.allocIndirection, Event.dispatchCall] ∧
    (qnnpackDeConv qp deconv_p batch_size ih iw input_scale izp
        output_scale ozp).status = Status.success ∧
    (qnnpackDeConv qp deconv_p batch_size ih iw input_scale izp
        output_scale ozp).scaleOf =
      input_scale.ratVal * deconv_p.kernel_scale.ratVal /
        output_scale.ratVal := by
  unfold qnnpackDeConv
  rw [if_neg hb, if_neg (by simp [hin]), if_neg (by simp [hout])]
  exact ⟨rfl, rfl, rfl⟩

/-- Witness for the amended C2 at a concrete input. -/
theorem C2_combined_scale_computed_after_alloc_witness :
    (1 : Nat) ≠ 0 ∧ scaleCheckFails (F32.normal 1) = false ∧
    (qnnpackDeConv testQP testConv 1 2 2 (F32.normal 1) 128
        (F32.normal 1) 128).scaleOf =
      (F32.normal 1).ratVal * testConv.kernel_scale.ratVal /
        (F32.normal 1).ratVal := by
  refine ⟨by decide, by decide, ?_⟩
  exact (C2_combined_scale_computed_after_alloc testQP testConv 1 2 2 128 128
    (F32.normal 1) (F32.normal 1) (by decide) (by decide) (by decide)).2.2

/-- C3: every invocation with `batch_size = 0` returns success with no
allocation (empty event trace, no operator constructed), no dispatch, and no
write to the output buffer (an empty schedule leaves the output untouched),
regardless of every other argument. -/
theorem C3_batch0_success_no_alloc_no_write (qp : QConvParams)
    (deconv_p : conv_param_t) (batch_size ih iw izp ozp : Nat)
    (input_scale output_scale : F32)
    (hb : batch_size = 0) :
    (qnnpackDeConv qp deconv_p batch_size ih iw input_scale izp
        output_scale ozp).status = Status.success ∧
    (qnnpackDeConv qp deconv_p batch_size ih iw input_scale izp
        output_scale ozp).events = [] ∧
    (qnnpackDeConv qp deconv_p batch_size ih iw input_scale izp
        output_scale ozp).op = none ∧
    ∀ G uk init, runSchedule G uk init
      (qnnpackDeConv qp deconv_p batch_size ih iw input_scale izp
        output_scale ozp).dispatched = init := by
  subst hb
  exact ⟨rfl, rfl, rfl, fun G uk init => rfl⟩

/-- Witness for C3 at a concrete input (batch 0, otherwise arbitrary valid
arguments). -/
theorem C3_batch0_success_no_alloc_no_write_witness :
    (0 : Nat) = 0 ∧
    (qnnpackDeConv testQP testConv 0 2 2 (F32.normal 1) 128
        (F32.normal 1) 128).status = Status.success := by
  refine ⟨rfl, ?_⟩
  exact (C3_batch0_success_no_alloc_no_write testQP testConv 0 2 2 128 128
    (F32.normal 1) (F32.normal 1) rfl).1

/-- Indirection-buffer byte size of the run (0 when none was built). -/
def RunResult.indSizeOf (r : RunResult) : Nat :=
  (r.op.map fun o => o.indirection_buffer_size).getD 0

/-- Indirection buffer of the run ([] when none was built). -/
def RunResult.indBufOf (r : RunResult) : List Cell :=
  (r.op.map fun o => o.indirection_buffer).getD []

/-- Zero-padding buffer of the run ([] when none was built). -/
def RunResult.zeroBufOf (r : RunResult) : List Nat :=
  (r.op.map fun o => o.zero_buffer).getD []

/-- Offset of the usable zero pointer from the allocation base. -/
def RunResult.zeroOffOf (r : RunResult) : Nat :=
  (r.op.map fun o => o.zero_offset).getD 0

/-- `m_stride` placed in the GEMM context (0 when the run never got there). -/
def RunResult.mStrideOf (r : RunResult) : Nat :=
  (r.op.map fun o => o.m_stride).getD 0

/-- `tiled_output_size` used to size the indirection buffer. -/
def RunResult.tiledOf (r : RunResult) : Nat :=
  (r.op.map fun o => o.tiled_output_size).getD 0

/-- Output width computed by the run. -/
def RunResult.outWOf (r : RunResult) : Nat :=
  (r.op.map fun o => o.output_width).getD 0

/-- Output height computed by the run. -/
def RunResult.outHOf (r : RunResult) : Nat :=
  (r.op.map fun o => o.output_height).getD 0

/-- `divide_round_up` is ceiling division. -/
theorem divide_round_up_eq (n q : Nat) (hq : 0 < q) :
    divide_round_up n q = (n + q - 1) / q := by
  have hd := Nat.div_add_mod n q
  have hr : n % q < q := Nat.mod_lt _ hq
  rcases Nat.eq_zero_or_pos (n % q) with h | h
  · have hn : n + q - 1 = q * (n / q) + (q - 1) := by omega
    rw [hn, Nat.mul_add_div hq,
      Nat.div_eq_of_lt (show q - 1 < q by omega)]
    simp [divide_round_up, h]
  · have hn : n + q - 1 = q * (n / q) + ((n % q - 1) + q) := by omega
    rw [hn, Nat.mul_add_div hq, Nat.add_div_right _ hq,
      Nat.div_eq_of_lt (show n % q - 1 < q by omega)]
    simp [divide_round_up, Nat.pos_iff_ne_zero.mp h]

/-- Masking with `2^w - 2^e` clears the low `e` bits: for `x < 2^w` this is
rounding down to a multiple of `2^e`. -/
theorem land_two_pow_sub (x e w : Nat) (hx : x < 2 ^ w) (he : e ≤ w) :
    x &&& (2 ^ w - 2 ^ e) = 2 ^ e * (x / 2 ^ e) := by
  have hmask : 2 ^ w - 2 ^ e = (2 ^ (w - e) - 1) <<< e := by
    rw [Nat.shiftLeft_eq, Nat.sub_mul, one_mul, ← Nat.pow_add,
      Nat.sub_add_cancel he]
  have hrhs : 2 ^ e * (x / 2 ^ e) = (x >>> e) <<< e := by
    rw [Nat.shiftLeft_eq, Nat.shiftRight_eq_div_pow, Nat.mul_comm]
  rw [hmask, hrhs]
  apply Nat.eq_of_testBit_eq
  intro i
  rw [Nat.testBit_and, Nat.testBit_shiftLeft, Nat.testBit_shiftLeft,
    Nat.testBit_shiftRight, Nat.testBit_two_pow_sub_one]
  by_cases hie : e ≤ i
  · by_cases hiw : i < w
    · have h1 : i - e < w - e := by omega
      have h2 : e + (i - e) = i := by omega
      simp [hie, h1, h2]
    · have hxi : x.testBit i = false := by
        apply Nat.testBit_lt_two_pow
        exact lt_of_lt_of_le hx (Nat.pow_le_pow_right (by norm_num) (by omega))
      have h2 : e + (i - e) = i := by omega
      simp [hie, hxi, h2]
  · simp [hie]

/-- The bitmask `(gic + (kr - 1)) & -kr` of deconv-run.cc line 63 (with the
`uint32_t` negation of `kr`) rounds the per-group input channel count up to a
multiple of `kr`, whenever `kr` is a power of two (as all micro-kernel tile
widths are) and the 32-bit mask covers the sum, i.e. `gic + kr - 1 < 2^32`. -/
theorem k_strideOf_eq_round_up (kr gic e : Nat) (he : kr = 2 ^ e)
    (hew : e ≤ 32) (hlt : gic + (kr - 1) < W32) :
    k_strideOf kr gic = round_up gic kr := by
  have hkr : 0 < kr := he ▸ Nat.pos_pow_of_pos e (by norm_num)
  have hm : (W32 - kr) % W32 = W32 - kr := by
    apply Nat.mod_eq_of_lt
    have : 0 < W32 := by norm_num [W32]
    omega
  unfold k_strideOf
  rw [Nat.mod_eq_of_lt (hlt.trans (by norm_num [W32, W64] : W32 < W64)), hm]
  have hland : Nat.land (gic + (kr - 1)) (W32 - kr) =
      (gic + (kr - 1)) &&& (2 ^ 32 - 2 ^ e) := by
    rw [he]; rfl
  rw [hland, land_two_pow_sub _ e 32 (by simpa [W32] using hlt) hew]
  rw [round_up, divide_round_up_eq _ _ hkr]
  have h1 : gic + (kr - 1) = gic + kr - 1 := by omega
  rw [← he, h1, Nat.mul_comm]

/-- Length of a `flatMap` over `List.range` with constant inner length. -/
theorem length_flatMap_const {β : Type} (n c : Nat) (f : Nat → List β)
    (h : ∀ i ∈ List.range n, (f i).length = c) :
    ((List.range n).flatMap f).length = n * c := by
  induction n with
  | zero => simp
  | succ m ih =>
      rw [List.range_succ, List.flatMap_append, List.length_append,
        ih (fun i hi => h i (by simp at hi ⊢; omega))]
      have hm : (f m).length = c := h m (by simp)
      simp [hm]
      ring

/-- The indirection buffer holds exactly one cell per
(group, image, tiled position, kernel tap) tuple. -/
theorem indirectionBufferOf_length (p : conv_param_t)
    (b ih iw os ow t : Nat) :
    (indirectionBufferOf p b ih iw os ow t).length =
      p.groups * (b * (t * (p.kernel_height * p.kernel_width))) := by
  unfold indirectionBufferOf
  apply length_flatMap_const
  intro g _
  apply length_flatMap_const
  intro im _
  apply length_flatMap_const
  intro tt _
  apply length_flatMap_const
  intro ky _
  simp

/-- C4: for every invocation with `batch_size > 0` and valid scales, the
indirection buffer is sized at exactly
`pointer_size * batch_size * groups * tiled_output_size * kernel_height *
kernel_width` bytes (one pointer-sized entry per cell, no wrap-around under
the stated bound) and the built buffer has exactly that many entries, where
`tiled_output_size` is `output_height * output_width` rounded up to the
micro-kernel row tile `mr`. -/
theorem C4_indirection_buffer_entry_count (qp : QConvParams)
    (deconv_p : conv_param_t) (batch_size ih iw izp ozp : Nat)
    (input_scale output_scale : F32)
    (hb : batch_size ≠ 0)
    (hin : scaleCheckFails input_scale = false)
    (hout : scaleCheckFails output_scale = false)
    (hof : 8 * batch_size * deconv_p.groups *
        round_up (outputHeightOf deconv_p ih * outputWidthOf deconv_p iw) qp.mr *
        (deconv_p.kernel_height * deconv_p.kernel_width) < W64) :
    (qnnpackDeConv qp deconv_p batch_size ih iw input_scale izp
        output_scale ozp).indSizeOf =
      8 * batch_size * deconv_p.groups *
        round_up (outputHeightOf deconv_p ih * outputWidthOf deconv_p iw) qp.mr *
        (deconv_p.kernel_height * deconv_p.kernel_width) ∧
    (qnnpackDeConv qp deconv_p batch_size ih iw input_scale izp
        output_scale ozp).indBufOf.length =
      batch_size * deconv_p.groups *
        round_up (outputHeightOf deconv_p ih * outputWidthOf deconv_p iw) qp.mr *
        (deconv_p.kernel_height * deconv_p.kernel_width) := by
  unfold qnnpackDeConv
  rw [if_neg hb, if_neg (by simp [hin]), if_neg (by simp [hout])]
  constructor
  · simp only [RunResult.indSizeOf, Option.map_some', Option.getD_some]
    exact Nat.mod_eq_of_lt hof
  · simp only [RunResult.indBufOf, Option.map_some', Option.getD_some]
    rw [indirectionBufferOf_length]
    ring

/-- Witness for C4 at a concrete input (2x2 input, testConv geometry). -/
theorem C4_indirection_buffer_entry_count_witness :
    (1 : Nat) ≠ 0 ∧
    (qnnpackDeConv testQP testConv 1 2 2 (F32.normal 1) 128
        (F32.normal 1) 128).indBufOf.length =
      1 * testConv.groups *
        round_up (outputHeightOf testConv 2 * outputWidthOf testConv 2) testQP.mr *
        (testConv.kernel_height * testConv.kernel_width) := by
  refine ⟨by decide, ?_⟩
  exact (C4_indirection_buffer_entry_count testQP testConv 1 2 2 128 128
    (F32.normal 1) (F32.normal 1) (by decide) (by decide) (by decide)
    (by decide)).2

/-- C5: for every invocation with `batch_size > 0` and valid scales (and a
power-of-two `kr`, as all micro-kernel tile widths are), the zero-padding
buffer has size `group_input_channels` rounded up to a multiple of `kr`,
plus 8 extra bytes exactly when `group_input_channels < 8`; the usable zero
pointer sits 8 bytes past the allocation base exactly in that case (at the
base otherwise); and every byte of the allocation equals the input zero
point.  The hypotheses pin `kr` to a power of two and keep the channel count
inside the 32-bit mask's range (`gic + kr - 1 < 2^32`), where the rounding
reading of the mask is exact. -/
theorem C5_zero_buffer_shape (qp : QConvParams)
    (deconv_p : conv_param_t) (batch_size ih iw izp ozp e : Nat)
    (input_scale output_scale : F32)
    (hb : batch_size ≠ 0)
    (hin : scaleCheckFails input_scale = false)
    (hout : scaleCheckFails output_scale = false)
    (he : qp.kr = 2 ^ e) (hew : e ≤ 32)
    (hlt : deconv_p.group_input_channels + (qp.kr - 1) < W32) :
    (qnnpackDeConv qp deconv_p batch_size ih iw input_scale izp
        output_scale ozp).zeroBufOf.length =
      (if deconv_p.group_input_channels < 8 then
        round_up deconv_p.group_input_channels qp.kr + 8
       else round_up deconv_p.group_input_channels qp.kr) ∧
    (qnnpackDeConv qp deconv_p batch_size ih iw input_scale izp
        output_scale ozp).zeroOffOf =
      (if deconv_p.group_input_channels < 8 then 8 else 0) ∧
    ∀ b ∈ (qnnpackDeConv qp deconv_p batch_size ih iw input_scale izp
        output_scale ozp).zeroBufOf, b = izp := by
  unfold qnnpackDeConv
  rw [if_neg hb, if_neg (by simp [hin]), if_neg (by simp [hout])]
  refine ⟨?_, ?_, ?_⟩
  · simp only [RunResult.zeroBufOf, Option.map_some', Option.getD_some,
      List.length_replicate]
    rw [k_strideOf_eq_round_up qp.kr deconv_p.group_input_channels e he hew hlt]
  · simp only [RunResult.zeroOffOf, Option.map_some', Option.getD_some]
  · simp only [RunResult.zeroBufOf, Option.map_some', Option.getD_some]
    intro b hbmem
    exact List.eq_of_mem_replicate hbmem

/-- Witness for C5 at a concrete input (kr = 4 = 2^2, one input channel, so
the 8-byte guard applies and the usable pointer is offset by 8). -/
theorem C5_zero_buffer_shape_witness :
    (1 : Nat) ≠ 0 ∧ testQP.kr = 2 ^ 2 ∧
    (qnnpackDeConv testQP testConv 1 2 2 (F32.normal 1) 128
        (F32.normal 1) 128).zeroBufOf.length =
      (if testConv.group_input_channels < 8 then
        round_up testConv.group_input_channels testQP.kr + 8
       else round_up testConv.group_input_channels testQP.kr) := by
  refine ⟨by decide, by decide, ?_⟩
  exact (C5_zero_buffer_shape testQP testConv 1 2 2 128 128 2
    (F32.normal 1) (F32.normal 1) (by decide) (by decide) (by decide)
    (by decide) (by decide) (by decide)).1

/-- C7: for every invocation that reaches geometry computation (batch > 0,
valid scales), with symmetric padding, kernel dims at least 1, input dims at
least 1 and no `size_t` underflow, each computed output spatial dimension
equals the standard transposed-convolution formula
`(input - 1) * stride - 2 * padding + dilation * (kernel - 1) + adjustment + 1`. -/
theorem C7_output_dims_standard_formula (qp : QConvParams)
    (deconv_p : conv_param_t) (batch_size ih iw izp ozp : Nat)
    (input_scale output_scale : F32)
    (hb : batch_size ≠ 0)
    (hin : scaleCheckFails input_scale = false)
    (hout : scaleCheckFails output_scale = false)
    (hwp : deconv_p.padding_left = deconv_p.padding_right)
    (hhp : deconv_p.padding_top = deconv_p.padding_bottom)
    (hiw : 1 ≤ iw) (hih : 1 ≤ ih)
    (hkw : 1 ≤ deconv_p.kernel_width) (hkh : 1 ≤ deconv_p.kernel_height)
    (hwno : 2 * deconv_p.padding_left ≤
      deconv_p.stride_width * (iw - 1) + deconv_p.adjustment_width +
        ((deconv_p.kernel_width - 1) * deconv_p.dilation_width + 1))
    (hhno : 2 * deconv_p.padding_top ≤
      deconv_p.stride_height * (ih - 1) + deconv_p.adjustment_height +
        ((deconv_p.kernel_height - 1) * deconv_p.dilation_height + 1)) :
    ((qnnpackDeConv qp deconv_p batch_size ih iw input_scale izp
        output_scale ozp).outWOf : Int) =
      ((iw : Int) - 1) * deconv_p.stride_width - 2 * deconv_p.padding_left +
        deconv_p.dilation_width * ((deconv_p.kernel_width : Int) - 1) +
        deconv_p.adjustment_width + 1 ∧
    ((qnnpackDeConv qp deconv_p batch_size ih iw input_scale izp
        output_scale ozp).outHOf : Int) =
      ((ih : Int) - 1) * deconv_p.stride_height - 2 * deconv_p.padding_top +
        deconv_p.dilation_height * ((deconv_p.kernel_height : Int) - 1) +
        deconv_p.adjustment_height + 1 := by
  unfold qnnpackDeConv
  rw [if_neg hb, if_neg (by simp [hin]), if_neg (by simp [hout])]
  constructor
  · simp only [RunResult.outWOf, Option.map_some', Option.getD_some]
    unfold outputWidthOf compute_output_dimension
    rw [← hwp]
    have h1 : deconv_p.padding_left + deconv_p.padding_left ≤
        deconv_p.stride_width * (iw - 1) + deconv_p.adjustment_width +
          ((deconv_p.kernel_width - 1) * deconv_p.dilation_width + 1) := by
      omega
    rw [Nat.cast_sub h1]
    push_cast [Nat.cast_sub hiw, Nat.cast_sub hkw]
    ring
  · simp only [RunResult.outHOf, Option.map_some', Option.getD_some]
    unfold outputHeightOf compute_output_dimension
    rw [← hhp]
    have h1 : deconv_p.padding_top + deconv_p.padding_top ≤
        deconv_p.stride_height * (ih - 1) + deconv_p.adjustment_height +
          ((deconv_p.kernel_height - 1) * deconv_p.dilation_height + 1) := by
      omega
    rw [Nat.cast_sub h1]
    push_cast [Nat.cast_sub hih, Nat.cast_sub hkh]
    ring

/-- Witness for C7 at the spec's end-to-end scenario: 2x2 input, stride 2,
2x2 kernel, zero padding: output dims come out 4 = (2-1)*2 - 0 + 1*(2-1) + 0 + 1. -/
theorem C7_output_dims_standard_formula_witness :
    (1 : Nat) ≠ 0 ∧
    ((qnnpackDeConv testQP testConv 1 2 2 (F32.normal 1) 128
        (F32.normal 1) 128).outWOf : Int) =
      ((2 : Int) - 1) * testConv.stride_width - 2 * testConv.padding_left +
        testConv.dilation_width * ((testConv.kernel_width : Int) - 1) +
        testConv.adjustment_width + 1 := by
  refine ⟨by decide, ?_⟩
  exact (C7_output_dims_standard_formula testQP testConv 1 2 2 128 128
    (F32.normal 1) (F32.normal 1) (by decide) (by decide) (by decide)
    (by decide) (by decide) (by decide) (by decide) (by decide) (by decide)
    (by decide) (by decide)).1

/-- C10: for every invocation that reaches dispatch, the per-image row stride
`m_stride` placed in the GEMM context (line 169, `round_up(output_size, mr)`)
equals the `tiled_output_size` used to size and populate the indirection
buffer (line 140, `round_up(output_size, output_tile_size)` with
`output_tile_size = mr`), and the built indirection buffer's layout is
exactly `groups * batch * m_stride * kernel_size` cells, so the dispatcher's
indexing of the indirection table agrees with the builder's layout. -/
theorem C10_m_stride_agrees_with_builder (qp : QConvParams)
    (deconv_p : conv_param_t) (batch_size ih iw izp ozp : Nat)
    (input_scale output_scale : F32)
    (hb : batch_size ≠ 0)
    (hin : scaleCheckFails input_scale = false)
    (hout : scaleCheckFails output_scale = false) :
    (qnnpackDeConv qp deconv_p batch_size ih iw input_scale izp
        output_scale ozp).mStrideOf =
      (qnnpackDeConv qp deconv_p batch_size ih iw input_scale izp
        output_scale ozp).tiledOf ∧
    (qnnpackDeConv qp deconv_p batch_size ih iw input_scale izp
        output_scale ozp).indBufOf.length =
      deconv_p.groups * (batch_size *
        ((qnnpackDeConv qp deconv_p batch_size ih iw input_scale izp
            output_scale ozp).mStrideOf *
          (deconv_p.kernel_height * deconv_p.kernel_width))) := by
  unfold qnnpackDeConv
  rw [if_neg hb, if_neg (by simp [hin]), if_neg (by simp [hout])]
  constructor
  · rfl
  · simp only [RunResult.indBufOf, RunResult.mStrideOf, Option.map_some',
      Option.getD_some]
    rw [indirectionBufferOf_length]

/-- Witness for C10 at a concrete input. -/
theorem C10_m_stride_agrees_with_builder_witness :
    (1 : Nat) ≠ 0 ∧
    (qnnpackDeConv testQP testConv 1 2 2 (F32.normal 1) 128
        (F32.normal 1) 128).mStrideOf =
      (qnnpackDeConv testQP testConv 1 2 2 (F32.normal 1) 128
        (F32.normal 1) 128).tiledOf := by
  refine ⟨by decide, ?_⟩
  exact (C10_m_stride_agrees_with_builder testQP testConv 1 2 2 128 128
    (F32.normal 1) (F32.normal 1) (by decide) (by decide) (by decide)).1

/-- The indirection builder never produces a null cell. -/
theorem indirectionEntry_ne_null (p : conv_param_t) (ih iw os ow g im t ky kx : Nat) :
    indirectionEntry p ih iw os ow g im t ky kx ≠ Cell.null := by
  unfold indirectionEntry
  split
  · simp
  · cases hy : deconvTapIndex p.padding_top p.stride_height p.dilation_height
        ih (t / ow) ky <;>
      cases hx : deconvTapIndex p.padding_left p.stride_width p.dilation_width
        iw (t % ow) kx <;>
      simp [hy, hx]

/-- C6: after construction, (1) the run's indirection buffer is exactly the
builder's table; (2) every cell of it is non-null; (3) every tile-padding row
at or past the true `output_size` maps to the zero-padding buffer; (4) every
cell whose (output-position, kernel-tap) pair maps to an input coordinate
outside the input bounds or failing the modulo-stride alignment test (i.e.
whose tap index resolves to `none` on either axis) maps to the zero-padding
buffer; and (5) every byte of the zero-padding buffer equals the input zero
point. -/
theorem C6_indirection_cells_resolve (qp : QConvParams)
    (deconv_p : conv_param_t) (batch_size ih iw izp ozp : Nat)
    (input_scale output_scale : F32)
    (hb : batch_size ≠ 0)
    (hin : scaleCheckFails input_scale = false)
    (hout : scaleCheckFails output_scale = false) :
    (qnnpackDeConv qp deconv_p batch_size ih iw input_scale izp
        output_scale ozp).indBufOf =
      indirectionBufferOf deconv_p batch_size ih iw
        (outputHeightOf deconv_p ih * outputWidthOf deconv_p iw)
        (outputWidthOf deconv_p iw)
        (round_up (outputHeightOf deconv_p ih * outputWidthOf deconv_p iw) qp.mr) ∧
    (∀ c ∈ (qnnpackDeConv qp deconv_p batch_size ih iw input_scale izp
        output_scale ozp).indBufOf, c ≠ Cell.null) ∧
    (∀ g im t ky kx,
      outputHeightOf deconv_p ih * outputWidthOf deconv_p iw ≤ t →
      indirectionEntry deconv_p ih iw
        (outputHeightOf deconv_p ih * outputWidthOf deconv_p iw)
        (outputWidthOf deconv_p iw) g im t ky kx = Cell.zeroPtr) ∧
    (∀ g im t ky kx,
      (deconvTapIndex deconv_p.padding_top deconv_p.stride_height
          deconv_p.dilation_height ih (t / outputWidthOf deconv_p iw) ky = none ∨
       deconvTapIndex deconv_p.padding_left deconv_p.stride_width
          deconv_p.dilation_width iw (t % outputWidthOf deconv_p iw) kx = none) →
      indirectionEntry deconv_p ih iw
        (outputHeightOf deconv_p ih * outputWidthOf deconv_p iw)
        (outputWidthOf deconv_p iw) g im t ky kx = Cell.zeroPtr) ∧
    ∀ b ∈ (qnnpackDeConv qp deconv_p batch_size ih iw input_scale izp
        output_scale ozp).zeroBufOf, b = izp := by
  unfold qnnpackDeConv
  rw [if_neg hb, if_neg (by simp [hin]), if_neg (by simp [hout])]
  refine ⟨rfl, ?_, ?_, ?_, ?_⟩
  · simp only [RunResult.indBufOf, Option.map_some', Option.getD_some]
    intro c hc
    simp only [indirectionBufferOf, List.mem_flatMap, List.mem_map,
      List.mem_range] at hc
    obtain ⟨g, _, im, _, t, _, ky, _, kx, _, rfl⟩ := hc
    exact indirectionEntry_ne_null _ _ _ _ _ _ _ _ _ _
  · intro g im t ky kx ht
    unfold indirectionEntry
    rw [if_pos ht]
  · intro g im t ky kx hnone
    unfold indirectionEntry
    by_cases ht : outputHeightOf deconv_p ih * outputWidthOf deconv_p iw ≤ t
    · rw [if_pos ht]
    · rw [if_neg ht]
      rcases hnone with h | h
      · cases hx : deconvTapIndex deconv_p.padding_left deconv_p.stride_width
            deconv_p.dilation_width iw (t % outputWidthOf deconv_p iw) kx <;>
          simp only [h, hx]
      · cases hy : deconvTapIndex deconv_p.padding_top deconv_p.stride_height
            deconv_p.dilation_height ih (t / outputWidthOf deconv_p iw) ky <;>
          simp only [hy, h]
  · simp only [RunResult.zeroBufOf, Option.map_some', Option.getD_some]
    intro b hbmem
    exact List.eq_of_mem_replicate hbmem

/-- Witness for C6: at the concrete testConv geometry with a 2x2 input the
true output size is 16, and the tile-padding position t = 20 maps to zero
padding. -/
theorem C6_indirection_cells_resolve_witness :
    (1 : Nat) ≠ 0 ∧
    outputHeightOf testConv 2 * outputWidthOf testConv 2 ≤ 20 ∧
    indirectionEntry testConv 2 2
      (outputHeightOf testConv 2 * outputWidthOf testConv 2)
      (outputWidthOf testConv 2) 0 0 20 0 0 = Cell.zeroPtr := by
  refine ⟨by decide, by decide, ?_⟩
  exact (C6_indirection_cells_resolve testQP testConv 1 2 2 128 128
    (F32.normal 1) (F32.normal 1) (by decide) (by decide) (by decide)).2.2.1
    0 0 20 0 0 (by decide)

/-- A start coordinate is a tile start iff it is a multiple of the tile step
below the bound. -/
theorem mem_tileStarts {step n k : Nat} (hs : 0 < step) :
    k ∈ tileStarts step n ↔ step ∣ k ∧ k < n := by
  simp only [tileStarts, List.mem_map, List.mem_range]
  constructor
  · rintro ⟨i, hi, rfl⟩
    refine ⟨dvd_mul_left step i, ?_⟩
    rw [divide_round_up_eq _ _ hs] at hi
    have h2 : (i + 1) * step ≤ ((n + step - 1) / step) * step :=
      Nat.mul_le_mul_right _ hi
    have h3 : ((n + step - 1) / step) * step ≤ n + step - 1 :=
      Nat.div_mul_le_self _ _
    have h4 : (i + 1) * step = i * step + step := by ring
    omega
  · rintro ⟨⟨c, rfl⟩, hk⟩
    refine ⟨c, ?_, by ring⟩
    rw [divide_round_up_eq _ _ hs]
    have h5 : (c + 1) * step ≤ n + step - 1 := by
      have h6 : (c + 1) * step = step * c + step := by ring
      omega
    exact (Nat.le_div_iff_mul_le hs).mpr h5

/-- Tile starts are pairwise distinct. -/
theorem tileStarts_nodup {step n : Nat} (hs : 0 < step) :
    (tileStarts step n).Nodup := by
  apply List.Nodup.map ?_ (List.nodup_range _)
  intro a b h
  exact Nat.eq_of_mul_eq_mul_right hs h

/-- The tiles of the 4D dispatch: group below `groups`, image below
`batch_size`, output start a multiple of `mr` below `output_size`, channel
start a multiple of `nr` below `group_output_channels`. -/
def isDispatchTile (mr nr groups batch_size output_size goc : Nat)
    (t : Tile) : Prop :=
  t.1 < groups ∧ t.2.1 < batch_size ∧
    mr ∣ t.2.2.1 ∧ t.2.2.1 < output_size ∧
    nr ∣ t.2.2.2 ∧ t.2.2.2 < goc

instance (mr nr groups batch_size output_size goc : Nat) (t : Tile) :
    Decidable (isDispatchTile mr nr groups batch_size output_size goc t) := by
  unfold isDispatchTile
  infer_instance

/-- Membership in the modelled 4D tiling. -/
theorem mem_compute_4d_tiled_tiles {mr nr groups bs os goc : Nat}
    (hmr : 0 < mr) (hnr : 0 < nr) (t : Tile) :
    t ∈ compute_4d_tiled_tiles mr nr groups bs os goc ↔
      isDispatchTile mr nr groups bs os goc t := by
  obtain ⟨g, im, k0, l0⟩ := t
  simp only [compute_4d_tiled_tiles, List.mem_flatMap, List.mem_map,
    List.mem_range, mem_tileStarts hmr, mem_tileStarts hnr, Prod.mk.injEq,
    isDispatchTile]
  constructor
  · rintro ⟨g', hg', im', him', k0', ⟨hd1, hl1⟩, l0', ⟨hd2, hl2⟩,
      rfl, rfl, rfl, rfl⟩
    exact ⟨hg', him', hd1, hl1, hd2, hl2⟩
  · rintro ⟨hg, him, hd1, hl1, hd2, hl2⟩
    exact ⟨g, hg, im, him, k0, ⟨hd1, hl1⟩, l0, ⟨hd2, hl2⟩, rfl, rfl, rfl, rfl⟩

/-- The modelled 4D tiling enumerates each tile at most once. -/
theorem compute_4d_tiled_tiles_nodup {mr nr groups bs os goc : Nat}
    (hmr : 0 < mr) (hnr : 0 < nr) :
    (compute_4d_tiled_tiles mr nr groups bs os goc).Nodup := by
  unfold compute_4d_tiled_tiles
  rw [List.nodup_flatMap]
  refine ⟨fun g _ => ?_, ?_⟩
  · rw [List.nodup_flatMap]
    refine ⟨fun im _ => ?_, ?_⟩
    · rw [List.nodup_flatMap]
      refine ⟨fun k0 _ => ?_, ?_⟩
      · apply List.Nodup.map ?_ (tileStarts_nodup hnr)
        intro a b h
        simpa using h
      · apply List.Pairwise.imp ?_ ((tileStarts_nodup hmr).pairwise_of_forall_ne
          (fun a _ b _ h => h))
        intro k0 k0' hne
        simp only [Function.onFun, List.disjoint_left, List.mem_map]
        rintro x ⟨l0, _, rfl⟩ ⟨l0', _, hx⟩
        simp only [Prod.mk.injEq] at hx
        exact hne hx.2.2.1.symm
    · apply List.Pairwise.imp ?_ ((List.nodup_range bs).pairwise_of_forall_ne
        (fun a _ b _ h => h))
      intro im im' hne
      simp only [Function.onFun, List.disjoint_left, List.mem_flatMap,
        List.mem_map]
      rintro x ⟨k0, _, l0, _, rfl⟩ ⟨k0', _, l0', _, hx⟩
      simp only [Prod.mk.injEq] at hx
      exact hne hx.2.1.symm
  · apply List.Pairwise.imp ?_ ((List.nodup_range groups).pairwise_of_forall_ne
      (fun a _ b _ h => h))
    intro g g' hne
    simp only [Function.onFun, List.disjoint_left, List.mem_flatMap,
      List.mem_map]
    rintro x ⟨im, _, k0, _, l0, _, rfl⟩ ⟨im', _, k0', _, l0', _, hx⟩
    simp only [Prod.mk.injEq] at hx
    exact hne hx.1.symm

/-- C8: for every invocation that reaches dispatch, the run returns success
only after the (modelled synchronous) thread-pool call, and the dispatched
tile list partitions the 4D space (groups, batch_size, output_size,
group_output_channels) into tiles of size (1, 1, mr, nr): it has no
duplicates (no tile is invoked twice), and its members are exactly the tiles
of the partition (no tile is missed), so each tile is invoked exactly once. -/
theorem C8_every_tile_exactly_once (qp : QConvParams)
    (deconv_p : conv_param_t) (batch_size ih iw izp ozp : Nat)
    (input_scale output_scale : F32)
    (hb : batch_size ≠ 0)
    (hin : scaleCheckFails input_scale = false)
    (hout : scaleCheckFails output_scale = false)
    (hmr : 0 < qp.mr) (hnr : 0 < qp.nr) :
    (qnnpackDeConv qp deconv_p batch_size ih iw input_scale izp
        output_scale ozp).status = Status.success ∧
    (qnnpackDeConv qp deconv_p batch_size ih iw input_scale izp
        output_scale ozp).dispatched.Nodup ∧
    ∀ t : Tile,
      (t ∈ (qnnpackDeConv qp deconv_p batch_size ih iw input_scale izp
          output_scale ozp).dispatched ↔
        isDispatchTile qp.mr qp.nr deconv_p.groups batch_size
          (outputHeightOf deconv_p ih * outputWidthOf deconv_p iw)
          deconv_p.group_output_channels t) := by
  unfold qnnpackDeConv
  rw [if_neg hb, if_neg (by simp [hin]), if_neg (by simp [hout])]
  refine ⟨rfl, ?_, ?_⟩
  · show (compute_4d_tiled_tiles qp.mr qp.nr deconv_p.groups batch_size
      (outputHeightOf deconv_p ih * outputWidthOf deconv_p iw)
      deconv_p.group_output_channels).Nodup
    exact compute_4d_tiled_tiles_nodup hmr hnr
  · intro t
    show t ∈ (compute_4d_tiled_tiles qp.mr qp.nr deconv_p.groups
      batch_size (outputHeightOf deconv_p ih * outputWidthOf deconv_p iw)
      deconv_p.group_output_channels) ↔ _
    exact mem_compute_4d_tiled_tiles hmr hnr t

/-- Witness for C8 at a concrete input: with the test geometry the origin
tile (0,0,0,0) is among the dispatched tiles iff it belongs to the
partition. -/
theorem C8_every_tile_exactly_once_witness :
    (1 : Nat) ≠ 0 ∧ 0 < testQP.mr ∧
    (((0, 0, 0, 0) : Tile) ∈
        (qnnpackDeConv testQP testConv 1 2 2 (F32.normal 1) 128
          (F32.normal 1) 128).dispatched ↔
      isDispatchTile testQP.mr testQP.nr testConv.groups 1
        (outputHeightOf testConv 2 * outputWidthOf testConv 2)
        testConv.group_output_channels ((0, 0, 0, 0) : Tile)) := by
  refine ⟨by decide, by decide, ?_⟩
  exact (C8_every_tile_exactly_once testQP testConv 1 2 2 128 128
    (F32.normal 1) (F32.normal 1) (by decide) (by decide) (by decide)
    (by decide) (by decide)).2.2 (0, 0, 0, 0)

/-- Two stride-aligned tile windows of the same width that contain a common
point have the same start. -/
theorem tile_start_unique {s k k' pos : Nat} (hs : 0 < s)
    (hk : s ∣ k) (hk' : s ∣ k')
    (h1 : k ≤ pos) (h2 : pos < k + s)
    (h1' : k' ≤ pos) (h2' : pos < k' + s) : k = k' := by
  obtain ⟨a, rfl⟩ := hk
  obtain ⟨b, rfl⟩ := hk'
  have ha : pos / s = a := by
    apply Nat.div_eq_of_lt_le
    · rw [Nat.mul_comm]; exact h1
    · rw [Nat.succ_mul, Nat.mul_comm]; exact h2
  have hb : pos / s = b := by
    apply Nat.div_eq_of_lt_le
    · rw [Nat.mul_comm]; exact h1'
    · rw [Nat.succ_mul, Nat.mul_comm]; exact h2'
  rw [ha.symm.trans hb]

/-- Two distinct dispatch tiles cover disjoint output cells: a cell covered
by both forces every tile coordinate to coincide. -/
theorem coveredBy_unique {G : TileGrid} {x y : Tile} {c : Nat × Nat × Nat}
    (hmr : 0 < G.mr) (hnr : 0 < G.nr)
    (hxk : G.mr ∣ x.2.2.1) (hyk : G.mr ∣ y.2.2.1)
    (hxl : G.nr ∣ x.2.2.2) (hyl : G.nr ∣ y.2.2.2)
    (hxg : x.2.2.2 < G.group_output_channels)
    (hyg : y.2.2.2 < G.group_output_channels)
    (hcx : coveredBy G x c = true) (hcy : coveredBy G y c = true) :
    x = y := by
  obtain ⟨gx, imx, kx, lx⟩ := x
  obtain ⟨gy, imy, ky, ly⟩ := y
  obtain ⟨im, pos, ch⟩ := c
  simp only [coveredBy, Bool.and_eq_true, decide_eq_true_eq] at hcx hcy
  obtain ⟨⟨⟨⟨⟨⟨hx1, hx2⟩, hx3⟩, hx4⟩, hx5⟩, hx6⟩, hx7⟩ := hcx
  obtain ⟨⟨⟨⟨⟨⟨hy1, hy2⟩, hy3⟩, hy4⟩, hy5⟩, hy6⟩, hy7⟩ := hcy
  have him : imx = imy := hx1 ▸ hy1
  have hgx : ch / G.group_output_channels = gx := by
    apply Nat.div_eq_of_lt_le
    · omega
    · rw [Nat.succ_mul]; omega
  have hgy : ch / G.group_output_channels = gy := by
    apply Nat.div_eq_of_lt_le
    · omega
    · rw [Nat.succ_mul]; omega
  have hg : gx = gy := hgx.symm.trans hgy
  subst hg
  subst him
  have hkk : kx = ky := tile_start_unique hmr hxk hyk hx2 hx3 hy2 hy3
  have hll : lx = ly := by
    refine tile_start_unique hnr hxl hyl
      (show lx ≤ ch - gx * G.group_output_channels by omega)
      (show ch - gx * G.group_output_channels < lx + G.nr by omega)
      (show ly ≤ ch - gx * G.group_output_channels by omega)
      (show ch - gx * G.group_output_channels < ly + G.nr by omega)
  rw [hkk, hll]

/-- C9: the operation is deterministic in its inputs: the final output
buffer is a function of the inputs alone. The only nondeterminism in the
implementation is the order in which the thread pool runs the dispatched
tiles, and for ANY two linearizations of the dispatched tile list (two
invocations with identical inputs and fresh output buffers), the resulting
output buffers are byte-identical, because distinct tiles write disjoint
output regions. -/
theorem C9_output_independent_of_schedule (qp : QConvParams)
    (deconv_p : conv_param_t) (batch_size ih iw izp ozp : Nat)
    (input_scale output_scale : F32)
    (uk : Tile → Nat × Nat × Nat → Nat) (init : Nat × Nat × Nat → Nat)
    (s1 s2 : List Tile)
    (hb : batch_size ≠ 0)
    (hin : scaleCheckFails input_scale = false)
    (hout : scaleCheckFails output_scale = false)
    (hmr : 0 < qp.mr) (hnr : 0 < qp.nr)
    (h1 : s1.Perm (qnnpackDeConv qp deconv_p batch_size ih iw input_scale izp
        output_scale ozp).dispatched)
    (h2 : s2.Perm (qnnpackDeConv qp deconv_p batch_size ih iw input_scale izp
        output_scale ozp).dispatched) :
    runSchedule ⟨qp.mr, qp.nr,
        outputHeightOf deconv_p ih * outputWidthOf deconv_p iw,
        deconv_p.group_output_channels⟩ uk init s1 =
    runSchedule ⟨qp.mr, qp.nr,
        outputHeightOf deconv_p ih * outputWidthOf deconv_p iw,
        deconv_p.group_output_channels⟩ uk init s2 := by
  have hd : (qnnpackDeConv qp deconv_p batch_size ih iw input_scale izp
      output_scale ozp).dispatched =
        compute_4d_tiled_tiles qp.mr qp.nr deconv_p.groups batch_size
          (outputHeightOf deconv_p ih * outputWidthOf deconv_p iw)
          deconv_p.group_output_channels := by
    unfold qnnpackDeConv
    rw [if_neg hb, if_neg (by simp [hin]), if_neg (by simp [hout])]
  have hperm : s1.Perm s2 := h1.trans h2.symm
  have hmem : ∀ t ∈ s1, isDispatchTile qp.mr qp.nr deconv_p.groups batch_size
      (outputHeightOf deconv_p ih * outputWidthOf deconv_p iw)
      deconv_p.group_output_channels t := by
    intro t ht
    have ht' := h1.subset ht
    rw [hd] at ht'
    exact (mem_compute_4d_tiled_tiles hmr hnr t).mp ht'
  unfold runSchedule
  apply hperm.foldl_eq'
  intro x hx y hy z
  have hx' := hmem x hx
  have hy' := hmem y hy
  by_cases hxy : x = y
  · rw [hxy]
  · funext c
    simp only [applyTile]
    by_cases hcx : coveredBy ⟨qp.mr, qp.nr,
        outputHeightOf deconv_p ih * outputWidthOf deconv_p iw,
        deconv_p.group_output_channels⟩ x c = true
    · by_cases hcy : coveredBy ⟨qp.mr, qp.nr,
          outputHeightOf deconv_p ih * outputWidthOf deconv_p iw,
          deconv_p.group_output_channels⟩ y c = true
      · exact absurd (coveredBy_unique hmr hnr hx'.2.2.1 hy'.2.2.1
          hx'.2.2.2.2.1 hy'.2.2.2.2.1 hx'.2.2.2.2.2 hy'.2.2.2.2.2 hcx hcy) hxy
      · simp [hcx, hcy]
    · simp [hcx]

/-- Witness for C9 at a concrete input, with the identity schedule on both
sides (the trivial linearization of the dispatched tiles). -/
theorem C9_output_independent_of_schedule_witness :
    0 < testQP.mr ∧
    runSchedule ⟨testQP.mr, testQP.nr,
        outputHeightOf testConv 2 * outputWidthOf testConv 2,
        testConv.group_output_channels⟩ (fun _ _ => 0) (fun _ => 0)
      (qnnpackDeConv testQP testConv 1 2 2 (F32.normal 1) 128
        (F32.normal 1) 128).dispatched =
    runSchedule ⟨testQP.mr, testQP.nr,
        outputHeightOf testConv 2 * outputWidthOf testConv 2,
        testConv.group_output_channels⟩ (fun _ _ => 0) (fun _ => 0)
      (qnnpackDeConv testQP testConv 1 2 2 (F32.normal 1) 128
        (F32.normal 1) 128).dispatched := by
  refine ⟨by decide, ?_⟩
  exact C9_output_independent_of_schedule testQP testConv 1 2 2 128 128
    (F32.normal 1) (F32.normal 1) (fun _ _ => 0) (fun _ => 0) _ _
    (by decide) (by decide) (by decide) (by decide) (by decide)
    (List.Perm.refl _) (List.Perm.refl _)
